import Mathlib

/-!
# admission-registry: the admission decision engine

A shallow embedding of `pkg/webhook.go` (the `Handler`, `validate`, `mutate`,
`mutationRequired` and `mutateAnnotations` functions) and of the whitelist
construction of `main.go`, followed by theorems about them.

Conventions of the embedding:

* Go `string` and `[]byte` are Lean `String`; prefix tests work on the character
  list of the string.
* A Go pointer that may be `nil` is an `Option`; dereferencing `nil` is the
  explicit outcome `Except.error GoPanic.nilDereference`.
* A Go `map[string]string` that may be `nil` is an `Option` of an association
  list; indexing returns the empty string for a missing key, as in Go.
* The library decoders and encoders (`deserializer.Decode`, `json.Unmarshal`,
  `json.Marshal`) are not part of the repository. They are taken as the fields
  of a `Codec`. A decoder returns the target value as it stands after the call
  together with the optional error, because the Go code keeps using the target
  variable after a failed call. Encoded output is represented by the value it
  encodes.
-/

set_option autoImplicit false

namespace AdmissionRegistry

/-! ## Data model (the fields of the Kubernetes types that the code reads or writes) -/

abbrev Bytes := String

deriving instance DecidableEq for Except

/-- Go run-time panics that the embedded code can raise. -/
inductive GoPanic where
  | nilDereference
  deriving DecidableEq, Repr

/-- Go `metav1.Status`, fields `Message` and `Code`. -/
structure Status where
  Message : String := ""
  Code : Int := 0
  deriving DecidableEq, Repr

/-- The dynamic `Value interface{}` of a patch operation: the code stores either a string
or a `map[string]string`. -/
inductive PatchValue where
  | str (s : String)
  | strMap (m : List (String × String))
  deriving DecidableEq, Repr

/-- Go `patchOperation`. -/
structure patchOperation where
  Op : String
  Path : String
  Value : PatchValue
  deriving DecidableEq, Repr

/-- Go `admissionv1.AdmissionResponse`. The `Patch` bytes are the JSON encoding of a list of
patch operations and are represented by that list; `none` is the nil slice. -/
structure AdmissionResponse where
  UID : String := ""
  Allowed : Bool := false
  Result : Option Status := none
  Patch : Option (List patchOperation) := none
  PatchType : Option String := none
  deriving DecidableEq, Repr

/-- Go `metav1.GroupVersionKind`. -/
structure GroupVersionKind where
  Group : String := ""
  Version : String := ""
  Kind : String := ""
  deriving DecidableEq, Repr

/-- Go `runtime.RawExtension`, field `Raw`. -/
structure RawExtension where
  Raw : Bytes := ""
  deriving DecidableEq, Repr

/-- Go `admissionv1.AdmissionRequest`. -/
structure AdmissionRequest where
  UID : String := ""
  Kind : GroupVersionKind := {}
  Namespace : String := ""
  Name : String := ""
  Object : RawExtension := {}
  deriving DecidableEq, Repr

/-- Go `admissionv1.AdmissionReview`. -/
structure AdmissionReview where
  APIVersion : String := ""
  Kind : String := ""
  Request : Option AdmissionRequest := none
  Response : Option AdmissionResponse := none
  deriving DecidableEq, Repr

/-- Go `corev1.Container`, field `Image`. -/
structure Container where
  Image : String := ""
  deriving DecidableEq, Repr

/-- Go `corev1.PodSpec`, field `Containers`. -/
structure PodSpec where
  Containers : List Container := []
  deriving DecidableEq, Repr

/-- Go `corev1.Pod`, field `Spec`. -/
structure Pod where
  Spec : PodSpec := {}
  deriving DecidableEq, Repr

/-- Go `map[string]string`; `none` is the nil map. -/
abbrev GoMap := Option (List (String × String))

/-- Go map indexing `m[key]`: the zero value `""` when the map is nil or the key is missing. -/
def GoMap.index (m : GoMap) (key : String) : String :=
  match m with
  | none => ""
  | some kvs => (kvs.lookup key).getD ""

/-- Go `metav1.ObjectMeta`, fields `Name`, `Namespace`, `Annotations`. -/
structure ObjectMeta where
  Name : String := ""
  Namespace : String := ""
  Annotations : GoMap := none
  deriving DecidableEq, Repr

/-- Go `appsv1.Deployment`, field `ObjectMeta`. -/
structure Deployment where
  ObjectMeta : ObjectMeta := {}
  deriving DecidableEq, Repr

/-- Go `corev1.Service`, field `ObjectMeta`. -/
structure Service where
  ObjectMeta : ObjectMeta := {}
  deriving DecidableEq, Repr

/-- Go `WebhookServer`, field `WhiteListRegistries`. -/
structure WebhookServer where
  WhiteListRegistries : List String := []
  deriving DecidableEq, Repr

/-- The library decoders and encoders the code calls. A decoder yields the target value as
the call leaves it and the error, `none` meaning success. The bytes an encoder produces are
represented by the value they encode, so an encoder only says whether it fails. -/
structure Codec where
  Decode : Bytes → AdmissionReview × Option String
  UnmarshalPod : Bytes → Pod × Option String
  UnmarshalDeployment : Bytes → Deployment × Option String
  UnmarshalService : Bytes → Service × Option String
  MarshalPatchError : List patchOperation → Option String
  MarshalReviewError : AdmissionReview → Option String
  unicodeLower : Char → Char

/-! ## Library string functions -/

/-- Go `strings.HasPrefix(s, p)`. -/
def HasPrefix (s p : String) : Bool :=
  p.data.isPrefixOf s.data

/-- Go `fmt` verb `%v` on a `[]string`: the elements separated by blanks, in brackets. -/
def fmtStrings (xs : List String) : String :=
  "[" ++ " ".intercalate xs ++ "]"

/-- Go `strings.ToLower`: ASCII letters are lowered directly; a rune outside ASCII goes
through the Unicode table `u` of the library. -/
def ToLower (u : Char → Char) (s : String) : String :=
  ⟨s.data.map (fun c => if c.val < 128 then c.toLower else u c)⟩

/-- Go `strings.Split(s, sep)` for a one-character separator, on character lists:
`cur` holds the characters of the current piece in reverse. -/
def splitAux (sep : Char) : List Char → List Char → List String
  | [], cur => [⟨cur.reverse⟩]
  | c :: cs, cur =>
    if c = sep then ⟨cur.reverse⟩ :: splitAux sep cs [] else splitAux sep cs (c :: cur)

/-- Go `strings.Split(s, sep)` for a one-character separator. -/
def Split (s : String) (sep : Char) : List String :=
  splitAux sep s.data []

/-! ## `validate` -/

/-- The inner loop of `validate`: `whitelisted` becomes true when some registry is a
prefix of the image (the loop does not stop at the first match). -/
def whitelistedLoop (image : String) : List String → Bool → Bool
  | [], whitelisted => whitelisted
  | registry :: rest, whitelisted =>
    whitelistedLoop image rest (if HasPrefix image registry then true else whitelisted)

/-- The local variables `allowed`, `code`, `message` of `validate`. -/
structure Verdict where
  allowed : Bool
  code : Int
  message : String
  deriving DecidableEq, Repr

/-- The container loop of `validate`, with its `break` at the first image that is not
whitelisted. -/
def containerLoop (registries : List String) : List Container → Verdict → Verdict
  | [], v => v
  | container :: rest, v =>
    if whitelistedLoop container.Image registries false then
      containerLoop registries rest v
    else
      { allowed := false
        code := 403
        message := container.Image ++ " image comes from an untrusted registry! Only images from "
          ++ fmtStrings registries ++ " are allowd " }

/-- Go `(*WebhookServer).validate`. -/
def validate (c : Codec) (s : WebhookServer) (ar : AdmissionReview) :
    Except GoPanic AdmissionResponse :=
  match ar.Request with
  | none => .error .nilDereference
  | some req =>
    let start : Verdict := { allowed := true, code := 200, message := "" }
    let (pod, err) := c.UnmarshalPod req.Object.Raw
    let afterDecode : Verdict :=
      match err with
      | some e => { allowed := false, code := 400, message := e }
      | none => start
    let v := containerLoop s.WhiteListRegistries pod.Spec.Containers afterDecode
    .ok { Allowed := v.allowed, Result := some { Code := v.code, Message := v.message } }

/-! ## `mutate`, `mutationRequired`, `mutateAnnotations` -/

def AnnotationMutateKey : String := "io.ydzs.admission-registry/mutate"

def AnnotationStatusKey : String := "io.ydzs.admission-registry/status"

/-- Go `mutationRequired`. `metadata.GetAnnotations()` returns the `Annotations` field. -/
def mutationRequired (u : Char → Char) (metadata : ObjectMeta) : Bool :=
  let annotations : GoMap :=
    match metadata.Annotations with
    | none => some []
    | some m => some m
  let switched := ToLower u (annotations.index AnnotationMutateKey)
  let required : Bool :=
    if switched = "n" ∨ switched = "no" ∨ switched = "false" ∨ switched = "off" then false
    else true
  let status := annotations.index AnnotationStatusKey
  if ToLower u status = "mutated" then false else required

/-- Go `mutateAnnotations`. The `added` map is given as its list of entries; the code calls
it with a single entry, so the iteration order of the Go map plays no role. -/
def mutateAnnotations (target : GoMap) (added : List (String × String)) : List patchOperation :=
  added.map fun (key, value) =>
    if target.isNone || target.index key == "" then
      { Op := "add", Path := "/metadata/annotations", Value := .strMap [(key, value)] }
    else
      { Op := "replace", Path := "/metadata/annotations/" ++ key, Value := .str key }

/-- The `switch req.Kind.Kind` of `mutate`: the object metadata, or the response with which
`mutate` returns at once. -/
def decodeObjectMeta (c : Codec) (req : AdmissionRequest) : Except AdmissionResponse ObjectMeta :=
  if req.Kind.Kind = "Deployment" then
    match c.UnmarshalDeployment req.Object.Raw with
    | (_, some e) => .error { Result := some { Code := 400, Message := e } }
    | (deployment, none) => .ok deployment.ObjectMeta
  else if req.Kind.Kind = "Service" then
    match c.UnmarshalService req.Object.Raw with
    | (_, some e) => .error { Result := some { Code := 400, Message := e } }
    | (service, none) => .ok service.ObjectMeta
  else
    .error { Result := some { Code := 400
                              Message := "Can not handle the kind(" ++ req.Kind.Kind ++ ") object" } }

/-- Go `(*WebhookServer).mutate`. -/
def mutate (c : Codec) (_s : WebhookServer) (ar : AdmissionReview) :
    Except GoPanic AdmissionResponse :=
  match ar.Request with
  | none => .error .nilDereference
  | some req =>
    match decodeObjectMeta c req with
    | .error response => .ok response
    | .ok objectMeta =>
      if !mutationRequired c.unicodeLower objectMeta then
        .ok { Allowed := true }
      else
        let annotations := [(AnnotationStatusKey, "mutated")]
        let patch := [] ++ mutateAnnotations objectMeta.Annotations annotations
        match c.MarshalPatchError patch with
        | some e => .ok { Result := some { Code := 400, Message := e } }
        | none => .ok { Allowed := true, Patch := some patch, PatchType := some "JSONPatch" }

/-! ## `Handler` -/

/-- The part of `*http.Request` that `Handler` reads: `Body` (`none` is a nil body, an
`Except.error` a failed `ioutil.ReadAll`), the `Content-Type` header and `URL.Path`. -/
structure HttpRequest where
  Body : Option (Except String Bytes) := none
  ContentType : String := ""
  Path : String := ""

/-- The `http.ResponseWriter`: the error its `Write` returns, `none` for success. -/
structure ResponseWriter where
  writeError : Option String := none

/-- What `Handler` does, in order: `http.Error`, `deserializer.Decode`, the engine calls,
`json.Marshal` of the envelope and `writer.Write` of its encoding. -/
inductive Event where
  | httpError (body : String) (code : Nat)
  | decode (body : Bytes)
  | callMutate (ar : AdmissionReview)
  | callValidate (ar : AdmissionReview)
  | marshal (envelope : AdmissionReview)
  | write (envelope : AdmissionReview)
  deriving DecidableEq, Repr

/-- A run of `Handler`: its events, the `responseAdmissionReview` it assembled (when it got
that far) and the panic that ended it, if any. -/
structure Run where
  events : List Event
  envelope : Option AdmissionReview := none
  panic : Option GoPanic := none
  deriving DecidableEq, Repr

/-- Lines 65 to 86 of `Handler`: the `admissionResponse` pointer after decoding, with the
engine call made. -/
def dispatch (c : Codec) (s : WebhookServer) (path : String) (review : AdmissionReview)
    (err : Option String) : Except GoPanic (Option AdmissionResponse) × List Event :=
  match err with
  | some e => (.ok (some { Allowed := false, Result := some { Message := e, Code := 500 } }), [])
  | none =>
    if path = "/mutate" then
      ((mutate c s review).map some, [.callMutate review])
    else if path = "/validate" then
      ((validate c s review).map some, [.callValidate review])
    else
      (.ok none, [])

/-- Lines 88 to 98 of `Handler`: the response envelope. -/
def assemble (requestAdmissionReview : AdmissionReview)
    (admissionResponse : Option AdmissionResponse) : AdmissionReview :=
  let responseAdmissionReview : AdmissionReview :=
    { APIVersion := requestAdmissionReview.APIVersion, Kind := requestAdmissionReview.Kind }
  match admissionResponse with
  | none => responseAdmissionReview
  | some response =>
    match requestAdmissionReview.Request with
    | none => { responseAdmissionReview with Response := some response }
    | some req => { responseAdmissionReview with Response := some { response with UID := req.UID } }

/-- Lines 100 to 112 of `Handler`: marshal and write the envelope. -/
def send (c : Codec) (writer : ResponseWriter) (envelope : AdmissionReview) : List Event :=
  match c.MarshalReviewError envelope with
  | some e => [.marshal envelope, .httpError ("Can not encode response:" ++ e) 400]
  | none =>
    match writer.writeError with
    | some e =>
      [.marshal envelope, .write envelope, .httpError ("Can not write response:" ++ e) 400]
    | none => [.marshal envelope, .write envelope]

/-- Go `(*WebhookServer).Handler`. -/
def Handler (c : Codec) (s : WebhookServer) (writer : ResponseWriter) (request : HttpRequest) :
    Run :=
  let body : Bytes :=
    match request.Body with
    | some (.ok data) => data
    | _ => ""
  if body.length = 0 then
    { events := [.httpError "empty data body" 400] }
  else
    let contentTypeEvents : List Event :=
      if request.ContentType ≠ "application/json" then
        [.httpError "Content-Type invalid,except application/json" 400]
      else []
    let (requestAdmissionReview, err) := c.Decode body
    let decoded := contentTypeEvents ++ [.decode body]
    match dispatch c s request.Path requestAdmissionReview err with
    | (.error p, calls) => { events := decoded ++ calls, panic := some p }
    | (.ok admissionResponse, calls) =>
      let responseAdmissionReview := assemble requestAdmissionReview admissionResponse
      { events := decoded ++ calls ++ send c writer responseAdmissionReview
        envelope := some responseAdmissionReview }

/-! ## The whitelist of `main` -/

/-- Go `os.Getenv`: the value of the variable, `""` when it is unset. -/
def Getenv (value : Option String) : String :=
  value.getD ""

/-- The `WhiteListRegistries` field `main` builds from `WHITELIST_REGISTRIES`. -/
def mainWhiteListRegistries (WHITELIST_REGISTRIES : Option String) : List String :=
  Split (Getenv WHITELIST_REGISTRIES) ','

/-! ## Applying a JSON Patch (RFC 6902) to an object document

The patch `mutate` returns is applied by the API server, outside the repository. The
definitions below follow RFC 6901 (JSON Pointer) and RFC 6902 (`add`, `replace`) for
documents built from strings and objects, which is all that object metadata with
annotations needs. -/

/-- JSON documents made of strings and objects. -/
inductive Json where
  | str (s : String)
  | obj (members : List (String × Json))

/-- The member `key` of an object. -/
def Json.member (doc : Json) (key : String) : Option Json :=
  match doc with
  | .obj members => members.lookup key
  | .str _ => none

/-- The string a document is, if it is one. -/
def Json.asString : Json → Option String
  | .str s => some s
  | .obj _ => none

/-- RFC 6901 unescaping of a reference token: `~1` is `/`, `~0` is `~`. -/
def unescapeToken : List Char → List Char
  | [] => []
  | c :: rest =>
    if c = '~' then
      match rest with
      | '1' :: _ => '/' :: (unescapeToken rest).tail
      | '0' :: _ => '~' :: (unescapeToken rest).tail
      | _ => c :: unescapeToken rest
    else c :: unescapeToken rest

/-- RFC 6901: the reference tokens of a pointer; `none` for a string that is no pointer. -/
def pointerTokens (path : String) : Option (List String) :=
  if path = "" then some []
  else
    match Split path '/' with
    | first :: tokens =>
      if first = "" then some (tokens.map fun t => ⟨unescapeToken t.data⟩) else none
    | [] => none

/-- Set member `key` of an object to `value`, adding it when it is missing. -/
def setMember (key : String) (value : Json) : List (String × Json) → List (String × Json)
  | [] => [(key, value)]
  | (k, v) :: rest => if k = key then (key, value) :: rest else (k, v) :: setMember key value rest

/-- RFC 6902 `add` (`mustExist = false`) and `replace` (`mustExist = true`) of `value` at
the location the tokens name. Every object on the way must exist; `replace` also needs the
target member to exist. -/
def applyAt (mustExist : Bool) (value : Json) : List String → Json → Option Json
  | [], _ => some value
  | _ :: _, .str _ => none
  | key :: [], .obj members =>
    if mustExist && (members.lookup key).isNone then none
    else some (.obj (setMember key value members))
  | key :: next :: rest, .obj members =>
    match members.lookup key with
    | none => none
    | some child =>
      (applyAt mustExist value (next :: rest) child).map fun changed =>
        .obj (setMember key changed members)

/-- The JSON value of a patch operation. -/
def PatchValue.toJson : PatchValue → Json
  | .str s => .str s
  | .strMap m => .obj (m.map fun (k, v) => (k, .str v))

/-- Apply one patch operation; `none` when the operation fails. -/
def applyOperation (op : patchOperation) (doc : Json) : Option Json :=
  match pointerTokens op.Path with
  | none => none
  | some tokens =>
    if op.Op = "add" then applyAt false op.Value.toJson tokens doc
    else if op.Op = "replace" then applyAt true op.Value.toJson tokens doc
    else none

/-- Apply a patch: its operations in order, failing as a whole when one fails. -/
def applyPatch : List patchOperation → Json → Option Json
  | [], doc => some doc
  | op :: rest, doc =>
    match applyOperation op doc with
    | none => none
    | some changed => applyPatch rest changed

/-- A string field with `omitempty`. -/
def omitEmpty (key value : String) : List (String × Json) :=
  if value = "" then [] else [(key, .str value)]

/-- The JSON document of an object with the given metadata: `name`, `namespace` and
`annotations` carry `omitempty`, so a nil or empty annotation map leaves no member. -/
def objectDocument (metadata : ObjectMeta) : Json :=
  let annotations : List (String × Json) :=
    match metadata.Annotations with
    | none => []
    | some [] => []
    | some (kv :: kvs) => [("annotations", .obj ((kv :: kvs).map fun (k, v) => (k, .str v)))]
  .obj [("metadata", .obj (omitEmpty "name" metadata.Name
    ++ omitEmpty "namespace" metadata.Namespace ++ annotations))]

/-- The annotation `key` of an object document. -/
def annotationOf (doc : Json) (key : String) : Option String :=
  ((doc.member "metadata").bind (·.member "annotations")).bind fun annotations =>
    (annotations.member key).bind Json.asString

/-! ## Example documents

The decoders of `exampleCodec` are finite tables: each entry gives what the Go decoder
leaves in the target and the error it returns for one document. `encoding/json` keeps
decoding after a field of the wrong type and reports the first such error at the end, so
the mistyped Pod below comes back with its containers filled in and an error. -/

def rawPodTwoImages : Bytes :=
  "\x7b\"spec\":\x7b\"containers\":[\x7b\"image\":\"docker.io/app\"\x7d,\x7b\"image\":\"internal.registry/base\"\x7d]\x7d\x7d"

def rawPodTrusted : Bytes :=
  "\x7b\"spec\":\x7b\"containers\":[\x7b\"image\":\"internal.registry/app\"\x7d,\x7b\"image\":\"internal.registry/base\"\x7d]\x7d\x7d"

def rawPodMistyped : Bytes :=
  "\x7b\"spec\":\x7b\"containers\":[\x7b\"image\":\"docker.io/app\"\x7d],\"hostNetwork\":\"yes\"\x7d\x7d"

def rawDeploymentPending : Bytes :=
  "\x7b\"metadata\":\x7b\"name\":\"web\",\"annotations\":\x7b\"io.ydzs.admission-registry/status\":\"pending\"\x7d\x7d\x7d"

def rawDeploymentMutated : Bytes :=
  "\x7b\"metadata\":\x7b\"name\":\"web\",\"annotations\":\x7b\"io.ydzs.admission-registry/mutate\":\"yes\",\"io.ydzs.admission-registry/status\":\"mutated\"\x7d\x7d\x7d"

def rawConfigMap : Bytes :=
  "\x7b\"metadata\":\x7b\"name\":\"cfg\"\x7d\x7d"

def bodyPodReview : Bytes :=
  "\x7b\"apiVersion\":\"admission.k8s.io/v1\",\"kind\":\"AdmissionReview\",\"request\":\x7b\"uid\":\"u-1\",\"kind\":\x7b\"group\":\"\",\"version\":\"v1\",\"kind\":\"Pod\"\x7d,\"object\":"
    ++ rawPodTwoImages ++ "\x7d\x7d"

def bodyNoRequest : Bytes :=
  "\x7b\"apiVersion\":\"admission.k8s.io/v1\",\"kind\":\"AdmissionReview\"\x7d"

def podTwoImages : Pod :=
  { Spec := { Containers := [{ Image := "docker.io/app" }, { Image := "internal.registry/base" }] } }

def podTrusted : Pod :=
  { Spec := { Containers := [{ Image := "internal.registry/app" },
                             { Image := "internal.registry/base" }] } }

def deploymentPending : Deployment :=
  { ObjectMeta := { Name := "web", Annotations := some [(AnnotationStatusKey, "pending")] } }

def deploymentMutated : Deployment :=
  { ObjectMeta := { Name := "web"
                    Annotations := some [(AnnotationMutateKey, "yes"),
                                         (AnnotationStatusKey, "mutated")] } }

def podReview : AdmissionReview :=
  { APIVersion := "admission.k8s.io/v1", Kind := "AdmissionReview"
    Request := some { UID := "u-1", Kind := { Version := "v1", Kind := "Pod" }
                      Object := { Raw := rawPodTwoImages } } }

def noRequestReview : AdmissionReview :=
  { APIVersion := "admission.k8s.io/v1", Kind := "AdmissionReview" }

/-- An admission review around one object. -/
def reviewOf (kind : String) (raw : Bytes) : AdmissionReview :=
  { APIVersion := "admission.k8s.io/v1", Kind := "AdmissionReview"
    Request := some { UID := "u-1", Kind := { Kind := kind }, Object := { Raw := raw } } }

/-- A table lookup with the decoder result for a document outside the table: the zero
value and a syntax error. -/
def tableDecode {α : Type} (zero : α) (table : List (Bytes × α × Option String)) (data : Bytes) :
    α × Option String :=
  (table.lookup data).getD (zero, some "unexpected end of JSON input")

/-- The codec of the examples. The encoders never fail, as `json.Marshal` does not on
strings and string maps. -/
def exampleCodec : Codec where
  Decode := tableDecode {} [(bodyPodReview, podReview, none), (bodyNoRequest, noRequestReview, none)]
  UnmarshalPod := tableDecode {}
    [(rawPodTwoImages, podTwoImages, none),
     (rawPodTrusted, podTrusted, none),
     (rawPodMistyped, { Spec := { Containers := [{ Image := "docker.io/app" }] } },
      some "json: cannot unmarshal string into Go struct field PodSpec.spec.hostNetwork of type bool")]
  UnmarshalDeployment := tableDecode {}
    [(rawDeploymentPending, deploymentPending, none),
     (rawDeploymentMutated, deploymentMutated, none)]
  UnmarshalService := tableDecode {} []
  MarshalPatchError := fun _ => none
  MarshalReviewError := fun _ => none
  unicodeLower := id

/-! ## Predicates used to state the properties -/

/-- Some whitelist entry is a prefix of the image, character for character. -/
def Trusted (registries : List String) (image : String) : Prop :=
  ∃ registry ∈ registries, registry.data <+: image.data

/-- The message `validate` builds for an image that is not whitelisted. -/
def untrustedMessage (image : String) (registries : List String) : String :=
  image ++ " image comes from an untrusted registry! Only images from "
    ++ fmtStrings registries ++ " are allowd "

/-- The response `validate` gives an admitted Pod. -/
def admitted : AdmissionResponse :=
  { Allowed := true, Result := some { Code := 200, Message := "" } }

/-! ## Lemmas about `validate` -/

theorem HasPrefix_iff (s p : String) : HasPrefix s p = true ↔ p.data <+: s.data := by
  unfold HasPrefix
  exact List.isPrefixOf_iff_prefix

theorem whitelistedLoop_eq (image : String) (registries : List String) (b : Bool) :
    whitelistedLoop image registries b = (b || registries.any (HasPrefix image)) := by
  induction registries generalizing b with
  | nil => simp [whitelistedLoop]
  | cons r rest ih =>
    rw [whitelistedLoop, ih]
    cases h : HasPrefix image r <;> cases b <;> simp [h]

theorem whitelistedLoop_iff_trusted (image : String) (registries : List String) :
    whitelistedLoop image registries false = true ↔ Trusted registries image := by
  rw [whitelistedLoop_eq]
  simp [Trusted, List.any_eq_true, HasPrefix_iff]

/-- The container loop either passes every container and keeps the verdict, or stops at
the first container that is not trusted with the 403 verdict for its image. -/
theorem containerLoop_cases (registries : List String) (containers : List Container)
    (v : Verdict) :
    ((∀ container ∈ containers, Trusted registries container.Image) ∧
        containerLoop registries containers v = v) ∨
    (∃ before offending after, containers = before ++ offending :: after ∧
        (∀ container ∈ before, Trusted registries container.Image) ∧
        ¬ Trusted registries offending.Image ∧
        containerLoop registries containers v =
          { allowed := false, code := 403
            message := untrustedMessage offending.Image registries }) := by
  induction containers with
  | nil => left; simp [containerLoop]
  | cons container rest ih =>
    by_cases h : whitelistedLoop container.Image registries false = true
    · have ht := (whitelistedLoop_iff_trusted _ _).1 h
      rcases ih with ⟨hall, hloop⟩ | ⟨before, offending, after, hsplit, hbefore, hoff, hloop⟩
      · left
        refine ⟨?_, ?_⟩
        · intro x hx
          rcases List.mem_cons.1 hx with rfl | hx
          · exact ht
          · exact hall x hx
        · rw [containerLoop, if_pos h, hloop]
      · right
        refine ⟨container :: before, offending, after, ?_, ?_, hoff, ?_⟩
        · rw [hsplit]; rfl
        · intro x hx
          rcases List.mem_cons.1 hx with rfl | hx
          · exact ht
          · exact hbefore x hx
        · rw [containerLoop, if_pos h, hloop]
    · right
      refine ⟨[], container, rest, rfl, ?_, ?_, ?_⟩
      · intro x hx; cases hx
      · exact fun ht => h ((whitelistedLoop_iff_trusted _ _).2 ht)
      · rw [containerLoop, if_neg h]; rfl

theorem validate_of_decoded (c : Codec) (s : WebhookServer) (ar : AdmissionReview)
    (req : AdmissionRequest) (pod : Pod) (hreq : ar.Request = some req)
    (hpod : c.UnmarshalPod req.Object.Raw = (pod, none)) :
    validate c s ar =
      let v := containerLoop s.WhiteListRegistries pod.Spec.Containers
        { allowed := true, code := 200, message := "" }
      .ok { Allowed := v.allowed, Result := some { Code := v.code, Message := v.message } } := by
  simp [validate, hreq, hpod]

theorem untrustedMessage_begins (image : String) (registries : List String) :
    image.data <+: (untrustedMessage image registries).data := by
  simp [untrustedMessage, String.data_append, List.append_assoc]

theorem untrustedMessage_lists (image : String) (registries : List String) :
    (fmtStrings registries).data <:+: (untrustedMessage image registries).data := by
  refine ⟨(image ++ " image comes from an untrusted registry! Only images from ").data,
    " are allowd ".data, ?_⟩
  simp [untrustedMessage, String.data_append, List.append_assoc]

/-! ## Properties of `validate` -/

/-- C1: for every whitelist and every review with a request whose object decodes as a Pod,
`validate` returns a response; it has `Allowed = false` exactly when some container image is
not trusted; in that case the result is code 403 with the message for the first such
container in declaration order, a message that begins with its image and contains the
printed whitelist; otherwise the response is `Allowed = true`, code 200 and the empty
message, in particular for a Pod without containers. -/
theorem validate_whitelist_verdict (c : Codec) (s : WebhookServer) (ar : AdmissionReview)
    (req : AdmissionRequest) (pod : Pod) (hreq : ar.Request = some req)
    (hpod : c.UnmarshalPod req.Object.Raw = (pod, none)) :
    ∃ response, validate c s ar = .ok response ∧
      (response.Allowed = false ↔
        ∃ container ∈ pod.Spec.Containers, ¬ Trusted s.WhiteListRegistries container.Image) ∧
      (response.Allowed = false →
        ∃ before offending after message,
          pod.Spec.Containers = before ++ offending :: after ∧
          (∀ container ∈ before, Trusted s.WhiteListRegistries container.Image) ∧
          ¬ Trusted s.WhiteListRegistries offending.Image ∧
          response.Result = some { Code := 403, Message := message } ∧
          message = untrustedMessage offending.Image s.WhiteListRegistries ∧
          offending.Image.data <+: message.data ∧
          (fmtStrings s.WhiteListRegistries).data <:+: message.data) ∧
      (response.Allowed = true → response = admitted) ∧
      (pod.Spec.Containers = [] → response = admitted) := by
  rw [validate_of_decoded c s ar req pod hreq hpod]
  rcases containerLoop_cases s.WhiteListRegistries pod.Spec.Containers
      { allowed := true, code := 200, message := "" } with
    ⟨hall, hloop⟩ | ⟨before, offending, after, hsplit, hbefore, hoff, hloop⟩
  · refine ⟨admitted, ?_, ?_, ?_, ?_, ?_⟩
    · simp [hloop, admitted]
    · constructor
      · intro h; simp [admitted] at h
      · rintro ⟨x, hx, hnot⟩; exact absurd (hall x hx) hnot
    · intro h; simp [admitted] at h
    · intro _; rfl
    · intro _; rfl
  · refine ⟨{ Allowed := false
              Result := some
                { Code := 403
                  Message := untrustedMessage offending.Image s.WhiteListRegistries } },
      ?_, ?_, ?_, ?_, ?_⟩
    · simp [hloop]
    · constructor
      · intro _
        exact ⟨offending, by rw [hsplit]; simp, hoff⟩
      · intro _; rfl
    · intro _
      exact ⟨before, offending, after, _, hsplit, hbefore, hoff, rfl, rfl,
        untrustedMessage_begins _ _, untrustedMessage_lists _ _⟩
    · intro h; simp at h
    · intro h; rw [hsplit] at h; simp at h

theorem validate_whitelist_verdict_witness :
    ∃ response, validate exampleCodec { WhiteListRegistries := ["internal.registry"] }
        (reviewOf "Pod" rawPodTwoImages) = .ok response ∧
      (response.Allowed = false ↔
        ∃ container ∈ podTwoImages.Spec.Containers,
          ¬ Trusted ["internal.registry"] container.Image) ∧
      (response.Allowed = false →
        ∃ before offending after message,
          podTwoImages.Spec.Containers = before ++ offending :: after ∧
          (∀ container ∈ before, Trusted ["internal.registry"] container.Image) ∧
          ¬ Trusted ["internal.registry"] offending.Image ∧
          response.Result = some { Code := 403, Message := message } ∧
          message = untrustedMessage offending.Image ["internal.registry"] ∧
          offending.Image.data <+: message.data ∧
          (fmtStrings ["internal.registry"]).data <:+: message.data) ∧
      (response.Allowed = true → response = admitted) ∧
      (podTwoImages.Spec.Containers = [] → response = admitted) :=
  validate_whitelist_verdict exampleCodec { WhiteListRegistries := ["internal.registry"] }
    (reviewOf "Pod" rawPodTwoImages) _ podTwoImages rfl (by decide)

/-- C5 (the code at the failing input): the mistyped Pod document fails to decode, with the
error of `encoding/json`, and `validate` still runs the container loop on the containers
the decoder left in the Pod, so the response carries code 403 and the whitelist message
where the claim has code 400 and the decoding error. -/
theorem validate_decode_error_overwritten :
    (exampleCodec.UnmarshalPod rawPodMistyped).2 =
      some "json: cannot unmarshal string into Go struct field PodSpec.spec.hostNetwork of type bool" ∧
    validate exampleCodec { WhiteListRegistries := ["internal.registry"] }
        (reviewOf "Pod" rawPodMistyped) =
      .ok { Allowed := false
            Result := some
              { Code := 403
                Message := "docker.io/app image comes from an untrusted registry! Only images from [internal.registry] are allowd " } } := by
  decide

/-- C10: with a whitelist that contains the empty string, `validate` admits (code 200, empty
message) every review whose object decodes as a Pod, whatever the images; the whitelist
`main` builds from an unset or empty `WHITELIST_REGISTRIES` is the one-element list of the
empty string; so the server `main` builds without configuration admits every such Pod. -/
theorem validate_empty_registry_admits_all :
    (∀ (c : Codec) (s : WebhookServer) (ar : AdmissionReview) (req : AdmissionRequest)
        (pod : Pod), ar.Request = some req → c.UnmarshalPod req.Object.Raw = (pod, none) →
        "" ∈ s.WhiteListRegistries → validate c s ar = .ok admitted) ∧
    mainWhiteListRegistries none = [""] ∧
    mainWhiteListRegistries (some "") = [""] ∧
    (∀ (c : Codec) (ar : AdmissionReview) (req : AdmissionRequest) (pod : Pod)
        (env : Option String), env = none ∨ env = some "" →
        ar.Request = some req → c.UnmarshalPod req.Object.Raw = (pod, none) →
        validate c { WhiteListRegistries := mainWhiteListRegistries env } ar = .ok admitted) := by
  have key : ∀ (c : Codec) (s : WebhookServer) (ar : AdmissionReview) (req : AdmissionRequest)
      (pod : Pod), ar.Request = some req → c.UnmarshalPod req.Object.Raw = (pod, none) →
      "" ∈ s.WhiteListRegistries → validate c s ar = .ok admitted := by
    intro c s ar req pod hreq hpod hmem
    rw [validate_of_decoded c s ar req pod hreq hpod]
    rcases containerLoop_cases s.WhiteListRegistries pod.Spec.Containers
        { allowed := true, code := 200, message := "" } with
      ⟨_, hloop⟩ | ⟨_, offending, _, _, _, hoff, _⟩
    · simp [hloop, admitted]
    · exact absurd ⟨"", hmem, List.nil_prefix⟩ hoff
  refine ⟨key, by decide, by decide, ?_⟩
  intro c ar req pod env henv hreq hpod
  apply key c _ ar req pod hreq hpod
  rcases henv with rfl | rfl <;> decide

theorem validate_empty_registry_admits_all_witness :
    validate exampleCodec { WhiteListRegistries := mainWhiteListRegistries none }
      (reviewOf "Pod" rawPodTwoImages) = .ok admitted :=
  validate_empty_registry_admits_all.2.2.2 exampleCodec (reviewOf "Pod" rawPodTwoImages) _
    podTwoImages none (Or.inl rfl) rfl (by decide)

/-! ## Properties of `mutationRequired` and `mutate` -/

theorem ToLower_mutated (u : Char → Char) : ToLower u "mutated" = "mutated" := by
  rfl

theorem ToLower_empty (u : Char → Char) : ToLower u "" = "" := by
  rfl

theorem mutationRequired_eq (u : Char → Char) (metadata : ObjectMeta) :
    mutationRequired u metadata =
      (decide (ToLower u (metadata.Annotations.index AnnotationMutateKey) ∉
          ["n", "no", "false", "off"]) &&
        decide (ToLower u (metadata.Annotations.index AnnotationStatusKey) ≠ "mutated")) := by
  have hidx : ∀ key, GoMap.index (match metadata.Annotations with
      | none => some []
      | some m => some m) key = metadata.Annotations.index key := by
    intro key
    cases metadata.Annotations <;> rfl
  unfold mutationRequired
  simp only [hidx]
  by_cases hs : ToLower u (metadata.Annotations.index AnnotationStatusKey) = "mutated"
  · simp [hs]
  · by_cases hm : ToLower u (metadata.Annotations.index AnnotationMutateKey) ∈
        ["n", "no", "false", "off"]
    · have hm2 := hm
      simp only [List.mem_cons, List.mem_singleton, List.not_mem_nil, or_false] at hm2
      simp [hs, hm, hm2]
    · have hm2 := hm
      simp only [List.mem_cons, List.mem_singleton, List.not_mem_nil, or_false] at hm2
      simp [hs, hm, hm2]

/-- C7: for every object metadata, `mutationRequired` is true exactly when the lowercased
opt-out annotation is none of "n", "no", "false", "off" and the lowercased status annotation
is not "mutated"; a nil annotation map gives the result of the empty map, which is true. -/
theorem mutationRequired_iff (u : Char → Char) (metadata : ObjectMeta) :
    (mutationRequired u metadata = true ↔
      ToLower u (metadata.Annotations.index AnnotationMutateKey) ∉ ["n", "no", "false", "off"] ∧
      ToLower u (metadata.Annotations.index AnnotationStatusKey) ≠ "mutated") ∧
    mutationRequired u { metadata with Annotations := none } =
      mutationRequired u { metadata with Annotations := some [] } ∧
    mutationRequired u { metadata with Annotations := none } = true ∧
    mutationRequired u { metadata with Annotations := some [] } = true := by
  refine ⟨?_, ?_, ?_, ?_⟩
  · rw [mutationRequired_eq]
    simp
  · rfl
  · rfl
  · rfl

theorem mutate_of_metadata (c : Codec) (s : WebhookServer) (ar : AdmissionReview)
    (req : AdmissionRequest) (metadata : ObjectMeta) (hreq : ar.Request = some req)
    (hmeta : decodeObjectMeta c req = .ok metadata) :
    mutate c s ar =
      if !mutationRequired c.unicodeLower metadata then .ok { Allowed := true }
      else
        let patch := mutateAnnotations metadata.Annotations [(AnnotationStatusKey, "mutated")]
        match c.MarshalPatchError patch with
        | some e => .ok { Result := some { Code := 400, Message := e } }
        | none => .ok { Allowed := true, Patch := some patch, PatchType := some "JSONPatch" } := by
  simp [mutate, hreq, hmeta]

/-- C6: for every mutate request whose kind is Deployment or Service and whose object
decodes with the status annotation equal to "mutated", `mutate` returns `Allowed = true`
with no result, no patch and no patch type, whatever the other annotations are, the
opt-out annotation among them. -/
theorem mutate_already_mutated (c : Codec) (s : WebhookServer) (ar : AdmissionReview)
    (req : AdmissionRequest) (metadata : ObjectMeta) (hreq : ar.Request = some req)
    (hkind : (req.Kind.Kind = "Deployment" ∧
        c.UnmarshalDeployment req.Object.Raw = ({ ObjectMeta := metadata }, none)) ∨
      (req.Kind.Kind = "Service" ∧
        c.UnmarshalService req.Object.Raw = ({ ObjectMeta := metadata }, none)))
    (hstatus : metadata.Annotations.index AnnotationStatusKey = "mutated") :
    mutate c s ar =
      .ok { UID := "", Allowed := true, Result := none, Patch := none, PatchType := none } := by
  have hmeta : decodeObjectMeta c req = .ok metadata := by
    rcases hkind with ⟨hk, hd⟩ | ⟨hk, hd⟩
    · simp [decodeObjectMeta, hk, hd]
    · simp [decodeObjectMeta, hk, hd]
  have hnot : mutationRequired c.unicodeLower metadata = false := by
    rw [mutationRequired_eq, hstatus, ToLower_mutated]
    simp
  rw [mutate_of_metadata c s ar req metadata hreq hmeta, hnot]
  rfl

theorem mutate_already_mutated_witness :
    mutate exampleCodec {} (reviewOf "Deployment" rawDeploymentMutated) =
      .ok { UID := "", Allowed := true, Result := none, Patch := none, PatchType := none } :=
  mutate_already_mutated exampleCodec {} (reviewOf "Deployment" rawDeploymentMutated) _
    deploymentMutated.ObjectMeta rfl (Or.inl ⟨rfl, by decide⟩) (by decide)

/-- C9: for every mutate request whose kind is neither "Deployment" nor "Service", `mutate`
returns `Allowed = false`, result code 400 with a message that contains the kind, no patch
and no patch type; the response is the same for every codec, so no decoder is consulted. -/
theorem mutate_unsupported_kind (c : Codec) (s : WebhookServer) (ar : AdmissionReview)
    (req : AdmissionRequest) (hreq : ar.Request = some req)
    (hd : req.Kind.Kind ≠ "Deployment") (hs : req.Kind.Kind ≠ "Service") :
    ∃ message, mutate c s ar =
        .ok { UID := "", Allowed := false, Result := some { Code := 400, Message := message }
              Patch := none, PatchType := none } ∧
      message = "Can not handle the kind(" ++ req.Kind.Kind ++ ") object" ∧
      req.Kind.Kind.data <:+: message.data ∧
      ∀ other : Codec, mutate other s ar = mutate c s ar := by
  have hall : ∀ k : Codec, mutate k s ar =
      .ok { Result := some { Code := 400
                             Message := "Can not handle the kind(" ++ req.Kind.Kind ++ ") object" } } := by
    intro k
    simp [mutate, hreq, decodeObjectMeta, hd, hs]
  refine ⟨_, hall c, rfl, ?_, ?_⟩
  · exact ⟨"Can not handle the kind(".data, ") object".data, by simp [String.data_append]⟩
  · intro other
    rw [hall other, hall c]

theorem mutate_unsupported_kind_witness :
    ∃ message, mutate exampleCodec {} (reviewOf "ConfigMap" rawConfigMap) =
        .ok { UID := "", Allowed := false, Result := some { Code := 400, Message := message }
              Patch := none, PatchType := none } ∧
      message = "Can not handle the kind(" ++ "ConfigMap" ++ ") object" ∧
      "ConfigMap".data <:+: message.data ∧
      ∀ other : Codec, mutate other {} (reviewOf "ConfigMap" rawConfigMap) =
        mutate exampleCodec {} (reviewOf "ConfigMap" rawConfigMap) :=
  mutate_unsupported_kind exampleCodec {} (reviewOf "ConfigMap" rawConfigMap) _ rfl
    (by decide) (by decide)

/-! ## The patch of `mutate` applied to the object -/

theorem lookup_setMember (key : String) (value : Json) (members : List (String × Json)) :
    (setMember key value members).lookup key = some value := by
  induction members with
  | nil => simp [setMember, List.lookup]
  | cons kv rest ih =>
    obtain ⟨k, v⟩ := kv
    by_cases h : k = key
    · simp [setMember, h, List.lookup]
    · have hne : (key == k) = false := by
        simpa using fun h2 : key = k => h h2.symm
      simp [setMember, h, List.lookup, hne, ih]

theorem applyAt_add_member (key : String) (value : Json) (members : List (String × Json)) :
    applyAt false value [key] (.obj members) = some (.obj (setMember key value members)) := by
  simp [applyAt]

/-- The add branch: when the annotation map is nil or holds no non-empty status value, the
operations `mutateAnnotations` emits, applied to the document of the object, give a
document whose status annotation is "mutated". -/
theorem add_branch_roundtrip (metadata : ObjectMeta)
    (h : metadata.Annotations = none ∨ metadata.Annotations.index AnnotationStatusKey = "") :
    (applyPatch (mutateAnnotations metadata.Annotations [(AnnotationStatusKey, "mutated")])
      (objectDocument metadata)).bind (annotationOf · AnnotationStatusKey) = some "mutated" := by
  have hcond : (metadata.Annotations.isNone ||
      metadata.Annotations.index AnnotationStatusKey == "") = true := by
    rcases h with h | h
    · simp [h]
    · simp [h]
  have hpatch : mutateAnnotations metadata.Annotations [(AnnotationStatusKey, "mutated")] =
      [{ Op := "add", Path := "/metadata/annotations"
         Value := .strMap [(AnnotationStatusKey, "mutated")] }] := by
    unfold mutateAnnotations
    simp only [List.map_cons, List.map_nil]
    rw [if_pos hcond]
  have htokens : pointerTokens "/metadata/annotations" = some ["metadata", "annotations"] := by
    decide
  rw [hpatch]
  simp only [applyPatch, applyOperation, htokens, objectDocument, applyAt, List.lookup,
    PatchValue.toJson]
  simp [annotationOf, Json.member, setMember, List.lookup, lookup_setMember, Json.asString,
    applyAt_add_member]

/-- C4 (the code at the failing input): for the Deployment whose status annotation is
"pending", `mutate` emits one `replace` operation whose path ends in the unescaped key and
whose value is the key; applying it to the document of the object fails, because the
pointer names a member `status` of a missing annotation `io.ydzs.admission-registry`, and
the status annotation stays "pending"; with the key escaped as RFC 6901 requires, the
operation sets the status annotation to the key and not to "mutated". -/
theorem replace_branch_roundtrip_fails :
    mutate exampleCodec {} (reviewOf "Deployment" rawDeploymentPending) =
      .ok { Allowed := true
            Patch := some [{ Op := "replace"
                             Path := "/metadata/annotations/io.ydzs.admission-registry/status"
                             Value := .str "io.ydzs.admission-registry/status" }]
            PatchType := some "JSONPatch" } ∧
    mutationRequired id deploymentPending.ObjectMeta = true ∧
    annotationOf (objectDocument deploymentPending.ObjectMeta) AnnotationStatusKey =
      some "pending" ∧
    (applyPatch
      (mutateAnnotations deploymentPending.ObjectMeta.Annotations
        [(AnnotationStatusKey, "mutated")])
      (objectDocument deploymentPending.ObjectMeta)).isNone = true ∧
    (applyPatch
      [{ Op := "replace", Path := "/metadata/annotations/io.ydzs.admission-registry~1status"
         Value := .str AnnotationStatusKey }]
      (objectDocument deploymentPending.ObjectMeta)).bind (annotationOf · AnnotationStatusKey) =
      some "io.ydzs.admission-registry/status" := by
  decide

/-! ## Properties of `Handler` -/

theorem validate_ok_of_request (c : Codec) (s : WebhookServer) (ar : AdmissionReview)
    (req : AdmissionRequest) (hreq : ar.Request = some req) :
    ∃ response, validate c s ar = .ok response := by
  simp [validate, hreq]

theorem mutate_ok_of_request (c : Codec) (s : WebhookServer) (ar : AdmissionReview)
    (req : AdmissionRequest) (hreq : ar.Request = some req) :
    ∃ response, mutate c s ar = .ok response := by
  simp only [mutate, hreq]
  cases decodeObjectMeta c req with
  | error response => exact ⟨_, rfl⟩
  | ok metadata =>
    dsimp only
    split
    · exact ⟨_, rfl⟩
    · split <;> exact ⟨_, rfl⟩

theorem marshal_mem_send (c : Codec) (writer : ResponseWriter) (envelope : AdmissionReview) :
    Event.marshal envelope ∈ send c writer envelope := by
  unfold send
  cases c.MarshalReviewError envelope <;> cases writer.writeError <;> simp

theorem Handler_of_dispatch (c : Codec) (s : WebhookServer) (writer : ResponseWriter)
    (request : HttpRequest) (body : Bytes) (review : AdmissionReview)
    (admissionResponse : Option AdmissionResponse) (calls : List Event)
    (hbody : request.Body = some (.ok body)) (hne : body.length ≠ 0)
    (hdec : c.Decode body = (review, none))
    (hdis : dispatch c s request.Path review none = (.ok admissionResponse, calls)) :
    (Handler c s writer request).envelope = some (assemble review admissionResponse) ∧
    (Handler c s writer request).panic = none ∧
    Event.marshal (assemble review admissionResponse) ∈ (Handler c s writer request).events := by
  simp [Handler, hbody, hne, hdec, hdis, marshal_mem_send]

set_option maxRecDepth 100000

/-- C2 as stated fails: the example body decodes to a review with a request, and for the
path "/healthz" the envelope `Handler` assembles and marshals has no `Response`, hence no
UID. -/
theorem Handler_other_path_no_response :
    exampleCodec.Decode bodyPodReview = (podReview, none) ∧
    podReview.Request.map (·.UID) = some "u-1" ∧
    (Handler exampleCodec { WhiteListRegistries := ["internal.registry"] } {}
      { Body := some (.ok bodyPodReview), ContentType := "application/json"
        Path := "/healthz" }) =
      { events :=
          [.decode bodyPodReview,
           .marshal { APIVersion := "admission.k8s.io/v1", Kind := "AdmissionReview" },
           .write { APIVersion := "admission.k8s.io/v1", Kind := "AdmissionReview" }]
        envelope := some { APIVersion := "admission.k8s.io/v1", Kind := "AdmissionReview"
                           Request := none, Response := none }
        panic := none } := by
  decide

/-- C2, amended: for every non-empty request body that decodes to a review with a request,
when the path is "/validate" or "/mutate" `Handler` does not panic and the envelope it
assembles and marshals carries a `Response` whose UID is the UID of the request; for every
other path the envelope it assembles carries no `Response`. -/
theorem Handler_echoes_uid (c : Codec) (s : WebhookServer) (writer : ResponseWriter)
    (request : HttpRequest) (body : Bytes) (review : AdmissionReview) (req : AdmissionRequest)
    (hbody : request.Body = some (.ok body)) (hne : body.length ≠ 0)
    (hdec : c.Decode body = (review, none)) (hreq : review.Request = some req) :
    (request.Path = "/validate" ∨ request.Path = "/mutate" →
      ∃ envelope response,
        (Handler c s writer request).envelope = some envelope ∧
        (Handler c s writer request).panic = none ∧
        Event.marshal envelope ∈ (Handler c s writer request).events ∧
        envelope.Response = some response ∧ response.UID = req.UID) ∧
    (request.Path ≠ "/validate" → request.Path ≠ "/mutate" →
      ∃ envelope,
        (Handler c s writer request).envelope = some envelope ∧
        (Handler c s writer request).panic = none ∧
        Event.marshal envelope ∈ (Handler c s writer request).events ∧
        envelope.Response = none) := by
  constructor
  · intro hpath
    have hdis : ∃ response calls,
        dispatch c s request.Path review none = (.ok (some response), calls) := by
      by_cases hm : request.Path = "/mutate"
      · obtain ⟨r, hr⟩ := mutate_ok_of_request c s review req hreq
        exact ⟨r, [.callMutate review], by simp [dispatch, hm, hr, Except.map]⟩
      · have hv : request.Path = "/validate" := hpath.resolve_right hm
        obtain ⟨r, hr⟩ := validate_ok_of_request c s review req hreq
        exact ⟨r, [.callValidate review], by simp [dispatch, hv, hm, hr, Except.map]⟩
    obtain ⟨response, calls, hdis⟩ := hdis
    obtain ⟨henv, hpanic, hmem⟩ :=
      Handler_of_dispatch c s writer request body review _ calls hbody hne hdec hdis
    refine ⟨_, { response with UID := req.UID }, henv, hpanic, hmem, ?_, rfl⟩
    simp [assemble, hreq]
  · intro hv hm
    have hdis : dispatch c s request.Path review none = (.ok none, []) := by
      simp [dispatch, hv, hm]
    obtain ⟨henv, hpanic, hmem⟩ :=
      Handler_of_dispatch c s writer request body review _ [] hbody hne hdec hdis
    exact ⟨_, henv, hpanic, hmem, by simp [assemble]⟩

theorem Handler_echoes_uid_witness :
    ∃ envelope response,
      (Handler exampleCodec { WhiteListRegistries := ["internal.registry"] } {}
        { Body := some (.ok bodyPodReview), ContentType := "application/json"
          Path := "/validate" }).envelope = some envelope ∧
      (Handler exampleCodec { WhiteListRegistries := ["internal.registry"] } {}
        { Body := some (.ok bodyPodReview), ContentType := "application/json"
          Path := "/validate" }).panic = none ∧
      Event.marshal envelope ∈
        (Handler exampleCodec { WhiteListRegistries := ["internal.registry"] } {}
          { Body := some (.ok bodyPodReview), ContentType := "application/json"
            Path := "/validate" }).events ∧
      envelope.Response = some response ∧ response.UID = "u-1" :=
  (Handler_echoes_uid exampleCodec { WhiteListRegistries := ["internal.registry"] } {}
    { Body := some (.ok bodyPodReview), ContentType := "application/json", Path := "/validate" }
    bodyPodReview podReview _ rfl (by decide) (by decide) rfl).1 (Or.inl rfl)

/-- C3 (the code at the failing input): for a request with a non-empty body and the content
type "text/plain", `Handler` reports the 400 error and then goes on: it decodes the body,
calls `validate`, marshals the envelope and writes it after the error. -/
theorem Handler_content_type_not_rejected :
    (Handler exampleCodec { WhiteListRegistries := ["internal.registry"] } {}
      { Body := some (.ok bodyPodReview), ContentType := "text/plain", Path := "/validate" }) =
      let envelope : AdmissionReview :=
        { APIVersion := "admission.k8s.io/v1", Kind := "AdmissionReview"
          Response := some
            { UID := "u-1", Allowed := false
              Result := some
                { Code := 403
                  Message := "docker.io/app image comes from an untrusted registry! Only images from [internal.registry] are allowd " } } }
      { events :=
          [.httpError "Content-Type invalid,except application/json" 400,
           .decode bodyPodReview,
           .callValidate podReview,
           .marshal envelope,
           .write envelope]
        envelope := some envelope
        panic := none } := by
  decide

/-- C8 (the code at the failing input): `validate` and `mutate` dereference the request of
the review before anything else, so on a review without a request both panic; the example
body decodes to such a review, and the run of `Handler` on it ends in the panic after the
engine call, with no envelope assembled, marshalled or written. -/
theorem Handler_absent_request_panics :
    (∀ (c : Codec) (s : WebhookServer) (ar : AdmissionReview), ar.Request = none →
      validate c s ar = .error .nilDereference ∧ mutate c s ar = .error .nilDereference) ∧
    exampleCodec.Decode bodyNoRequest = (noRequestReview, none) ∧
    noRequestReview.Request = none ∧
    (Handler exampleCodec { WhiteListRegistries := ["internal.registry"] } {}
      { Body := some (.ok bodyNoRequest), ContentType := "application/json"
        Path := "/validate" }) =
      { events := [.decode bodyNoRequest, .callValidate noRequestReview]
        envelope := none
        panic := some .nilDereference } ∧
    (Handler exampleCodec { WhiteListRegistries := ["internal.registry"] } {}
      { Body := some (.ok bodyNoRequest), ContentType := "application/json"
        Path := "/mutate" }) =
      { events := [.decode bodyNoRequest, .callMutate noRequestReview]
        envelope := none
        panic := some .nilDereference } := by
  refine ⟨?_, by decide, by decide, by decide, by decide⟩
  intro c s ar h
  simp [validate, mutate, h]

end AdmissionRegistry
